import Mathlib

/-!
Verification development for the AiogramProjectTemplate repository.

The repository's two visible source files are `src/main.py` (application
startup, serving and shutdown) and
`src/apps/bot/keyboards/common/helper_kbs.py` (inline keyboard helpers).
The persistence-session layer itself (`PersistenceSessionManager`,
`MemoryPersistenceSession`, `RedisPersistenceSession`) is imported by
`main.py` but its code is not part of the visible sources, so that layer
is modelled from the specification where needed.

We embed `main()` as a pure function from configuration plus failure
injection to the ordered list of startup/serving/shutdown events it
performs, and the keyboard helpers as pure functions over a builder
state.
-/

/-! ## Keyboard helpers (`src/apps/bot/keyboards/common/helper_kbs.py`) -/

/-- aiogram `InlineKeyboardButton`: the fields used by the helper file. -/
structure InlineKeyboardButton where
  text : String
  callback_data : String
deriving DecidableEq, Repr

/-- aiogram `CallbackData` (external collaborator): we model an instance by
its packed wire representation, produced by `pack()`. -/
structure CallbackData where
  packed : String
deriving DecidableEq, Repr

/-- Method `CallbackData.pack()` returns the packed string. -/
def CallbackData.pack (c : CallbackData) : String := c.packed

/-- The `cd: str | CallbackData` union argument of the back-button helpers. -/
inductive CdArg where
  | str (s : String)
  | cb (c : CallbackData)
deriving DecidableEq, Repr

/-- Class `CustomInlineKeyboardBuilder`: the builder state is the list of rows of
buttons accumulated so far (aiogram's builder markup). -/
structure CustomInlineKeyboardBuilder where
  rows : List (List InlineKeyboardButton)
deriving DecidableEq, Repr

namespace CustomInlineKeyboardBuilder

/-- aiogram `InlineKeyboardBuilder.row(*buttons)`: appends the given buttons
as one new row. -/
def row (b : CustomInlineKeyboardBuilder) (btns : List InlineKeyboardButton) :
    CustomInlineKeyboardBuilder :=
  { rows := b.rows ++ [btns] }

/-- Default `text` argument of `add_back`, `add_admin_back`, `add_start_back`. -/
def back_default_text : String := "«"

/-- Default `cd` argument of `add_back`. -/
def add_back_default_cd : CdArg := .str "start"

/-- Default `cd` argument of `add_admin_back`. -/
def add_admin_back_default_cd : CdArg := .str "admin"

/-- Default `cd` argument of `add_start_back`. -/
def add_start_back_default_cd : CdArg := .str "start"

/-- Method `add_back(text, cd)`: if `cd` is not a string it is packed, then one row
holding one button `IKB(text=text, callback_data=cd)` is appended. -/
def add_back (b : CustomInlineKeyboardBuilder) (text : String) (cd : CdArg) :
    CustomInlineKeyboardBuilder :=
  match cd with
  | .str s => b.row [⟨text, s⟩]
  | .cb c => b.row [⟨text, c.pack⟩]

/-- Method `add_admin_back(text, cd)` delegates to `add_back(text, cd)`. -/
def add_admin_back (b : CustomInlineKeyboardBuilder) (text : String) (cd : CdArg) :
    CustomInlineKeyboardBuilder :=
  b.add_back text cd

/-- Method `add_start_back(text, cd)` delegates to `add_back(text, cd)`. -/
def add_start_back (b : CustomInlineKeyboardBuilder) (text : String) (cd : CdArg) :
    CustomInlineKeyboardBuilder :=
  b.add_back text cd

end CustomInlineKeyboardBuilder

/-- The string `add_back` stores as `callback_data`: a `CallbackData`
argument is converted via `pack()`, a string argument passes through. -/
def cdToString : CdArg → String
  | .str s => s
  | .cb c => c.pack

/-! ## Application startup (`src/main.py`)

`main()` is embedded as a pure function from the parsed settings, the CLI
settings and two failure injections (does `session_manager.initialize()`
raise, does serving raise) to the ordered list of events `main` performs
and the exception, if any, that escapes it.  Each event mirrors one
statement of `main()`, in source order. -/

/-- Configuration `settings.redis` (`RedisSettings`): the connection URL. -/
structure RedisSettings where
  url : String
deriving DecidableEq, Repr

/-- The slice of `Settings` that `main()` branches on. -/
structure Settings where
  redis : Option RedisSettings
  webhook : Bool
  webadmin : Bool
  support : Bool
deriving DecidableEq, Repr

/-- The slice of the CLI settings that `main()` branches on. -/
structure CliSettings where
  webhook : Bool
deriving DecidableEq, Repr

/-- The two light-backend variants `main()` can construct. -/
inductive BackendKind where
  | memory
  | redis
deriving DecidableEq, Repr

/-- Events performed by `main()`, one per relevant statement.  Events that
carry a `Nat` carry the identity of the manager object they receive, so
that reference-passing is visible in the trace. -/
inductive Event where
  | constructBackend (b : BackendKind)
  | constructManager (mid : Nat)
  | managerInit (mid : Nat)
  | constructDispatcher (mid : Nat)
  | registerStartup
  | registerShutdown
  | setupRouters
  | setupMiddlewares (mid : Nat)
  | setCommands
  | setupWebadmin
  | deleteWebhook
  | startPolling
  | startWebhook
  | closeBotSession
  | closeStorage
  | closeDb
  | managerClose (mid : Nat)
deriving DecidableEq, Repr

/-- Exceptions that can escape `main()` in the modelled paths. -/
inductive MainError where
  | backendUnavailable
  | valueErrorWebhook
  | serveException
deriving DecidableEq, Repr

/-- Lines 63-67 of `main.py`: `if settings.redis:` construct
`RedisPersistenceSession(redis)` else `MemoryPersistenceSession()`. -/
def selectLightBackend (redis : Option RedisSettings) : BackendKind :=
  match redis with
  | some _ => .redis
  | none => .memory

/-- Lines 114-128 of `main.py`: the `try` block of the serving phase.
Polling when the CLI did not request webhook mode; webhook serving when it
did and `settings.webhook` is set; otherwise the `ValueError`.  `serveFails`
injects an exception raised while serving. -/
def serveEvents (s : Settings) (cli : CliSettings) (serveFails : Bool) :
    List Event × Option MainError :=
  if cli.webhook = false then
    ([.deleteWebhook, .startPolling], if serveFails then some .serveException else none)
  else if s.webhook then
    ([.startWebhook], if serveFails then some .serveException else none)
  else
    ([], some .valueErrorWebhook)

/-- Lines 130-133 of `main.py`: the `finally` block, in source order. -/
def cleanupEvents : List Event :=
  [.closeBotSession, .closeStorage, .closeDb]

/-- Lines 32-133 of `main.py`.  Events appear in source order; the single
`PersistenceSessionManager` constructed at line 69 is given identity `0`,
and every event that receives the manager carries that identity.  When
`initialize()` raises (`initFails`), the exception propagates out of
`main()` at line 73, before any further event; note that the `finally`
block at line 130 only guards the serving `try` block, so it does not run
on that path. -/
def mainRun (s : Settings) (cli : CliSettings) (initFails serveFails : Bool) :
    List Event × Option MainError :=
  let setupEvts : List Event :=
    [.constructBackend (selectLightBackend s.redis), .constructManager 0]
  if initFails then
    (setupEvts, some .backendUnavailable)
  else
    let wiring : List Event :=
      [.managerInit 0, .constructDispatcher 0, .registerStartup, .registerShutdown,
        .setupRouters, .setupMiddlewares 0, .setCommands] ++
      (if s.webadmin then [.setupWebadmin] else [])
    let serve := serveEvents s cli serveFails
    (setupEvts ++ wiring ++ serve.1 ++ cleanupEvents, serve.2)

/-- Does the event construct a light backend? -/
def isConstructBackend : Event → Bool
  | .constructBackend _ => true
  | _ => false

/-- Does the event construct a `PersistenceSessionManager`? -/
def isConstructManager : Event → Bool
  | .constructManager _ => true
  | _ => false

/-- Events that construct the manager or hand it to a component. -/
def isManagerEvent : Event → Bool
  | .constructManager _ => true
  | .constructDispatcher _ => true
  | .setupMiddlewares _ => true
  | _ => false

/-- Does the event close the `PersistenceSessionManager`? -/
def isManagerClose : Event → Bool
  | .managerClose _ => true
  | _ => false

/-- Does the event await `session_manager.initialize()`? -/
def isManagerInit : Event → Bool
  | .managerInit _ => true
  | _ => false

/-- Events of the wiring/serving phase (everything `main()` does after
`initialize()` and before the `finally` block). -/
def isWiringOrServingEvent : Event → Bool
  | .constructDispatcher _ => true
  | .registerStartup => true
  | .registerShutdown => true
  | .setupRouters => true
  | .setupMiddlewares _ => true
  | .setCommands => true
  | .setupWebadmin => true
  | .deleteWebhook => true
  | .startPolling => true
  | .startWebhook => true
  | _ => false

/-! ## Light persistence backends

`MemoryPersistenceSession` and `RedisPersistenceSession` are imported by
`main.py` from `src.db.persistence_session` but their code is not among the
visible sources, so they are modelled from the specification (§4.1). -/

/-- Session keys are opaque identifiers; modelled as strings. -/
abbrev SessionKey := String

/-- Session values are arbitrary serializable payloads; modelled as strings,
where the empty string is a legal (non-absent) value. -/
abbrev SessionValue := String

/-- Errors surfaced by the remote light backend. -/
inductive LightError where
  | backendUnavailable
deriving DecidableEq, Repr

/-- The expiry timestamp stored for an entry written at time `now` with the
given optional ttl. -/
def expiryOf (ttl : Option Nat) (now : Nat) : Option Nat :=
  ttl.map (fun d => now + d)

/-- Is an entry with expiry `e` still readable at time `t`? -/
def readableAt (e : Option Nat) (t : Nat) : Bool :=
  match e with
  | none => true
  | some exp => decide (t < exp)

/-- Modelled from the spec: `MemoryPersistenceSession`, the in-process light
backend — a map from session key to value plus optional expiry timestamp,
with lazy expiry checked on read (§4.1, in-process variant). -/
structure MemoryPersistenceSession where
  entries : SessionKey → Option (SessionValue × Option Nat)

namespace MemoryPersistenceSession

/-- The freshly constructed, empty in-process backend. -/
def empty : MemoryPersistenceSession := ⟨fun _ => none⟩

/-- Modelled from the spec: `set(key, value, ttl?)` stores the value,
replacing any prior value; a ttl is recorded as the expiry timestamp
`now + ttl`. -/
def set (st : MemoryPersistenceSession) (k : SessionKey) (v : SessionValue)
    (ttl : Option Nat) (now : Nat) : MemoryPersistenceSession :=
  ⟨fun q => if q = k then some (v, expiryOf ttl now) else st.entries q⟩

/-- Modelled from the spec: `delete(key)`, idempotent removal. -/
def delete (st : MemoryPersistenceSession) (k : SessionKey) :
    MemoryPersistenceSession :=
  ⟨fun q => if q = k then none else st.entries q⟩

/-- Modelled from the spec: `get(key)` returns the current value or `none`
(the absent marker) and never raises; an expired entry reads as absent and
is opportunistically removed (lazy expiry). -/
def get (st : MemoryPersistenceSession) (k : SessionKey) (now : Nat) :
    Option SessionValue × MemoryPersistenceSession :=
  match st.entries k with
  | none => (none, st)
  | some (v, none) => (some v, st)
  | some (v, some exp) =>
    if now < exp then (some v, st) else (none, st.delete k)

end MemoryPersistenceSession

/-- Operations a caller can issue against the in-process backend. -/
inductive MemOp where
  | set (k : SessionKey) (v : SessionValue) (ttl : Option Nat) (now : Nat)
  | del (k : SessionKey)
  | get (k : SessionKey) (now : Nat)

/-- State reached after one in-process operation. -/
def MemoryPersistenceSession.apply (st : MemoryPersistenceSession) :
    MemOp → MemoryPersistenceSession
  | .set k v ttl now => st.set k v ttl now
  | .del k => st.delete k
  | .get k now => (st.get k now).2

/-- State reached after a sequence of in-process operations. -/
def MemoryPersistenceSession.applyOps (st : MemoryPersistenceSession)
    (ops : List MemOp) : MemoryPersistenceSession :=
  ops.foldl MemoryPersistenceSession.apply st

/-- Does the operation leave an entry at key `k` with expiry `e` in place?
True unless it overwrites `k`, deletes `k`, or reads `k` at a time at which
the entry has expired (which lazily removes it). -/
def keepsEntry (k : SessionKey) (e : Option Nat) : MemOp → Bool
  | .set q _ _ _ => !(q == k)
  | .del q => !(q == k)
  | .get q t => !(q == k) || readableAt e t

/-- Modelled from the spec: `RedisPersistenceSession`, the remote light
backend — the remote store's keyspace plus an availability flag; every
operation fails with `BackendUnavailable` when the store is unreachable,
and ttl expiry is the store's native mechanism (§4.1, remote variant). -/
structure RedisPersistenceSession where
  available : Bool
  entries : SessionKey → Option (SessionValue × Option Nat)

namespace RedisPersistenceSession

/-- The remote backend with a reachable, empty store. -/
def empty : RedisPersistenceSession := ⟨true, fun _ => none⟩

/-- The store's keyspace after a successful write of `k`. -/
def store (st : RedisPersistenceSession) (k : SessionKey) (v : SessionValue)
    (ttl : Option Nat) (now : Nat) : RedisPersistenceSession :=
  ⟨st.available, fun q => if q = k then some (v, expiryOf ttl now) else st.entries q⟩

/-- The store's keyspace after a successful removal of `k`. -/
def remove (st : RedisPersistenceSession) (k : SessionKey) :
    RedisPersistenceSession :=
  ⟨st.available, fun q => if q = k then none else st.entries q⟩

/-- Modelled from the spec: remote `set(key, value, ttl?)` — a round trip
that either stores the value or surfaces `BackendUnavailable`. -/
def set (st : RedisPersistenceSession) (k : SessionKey) (v : SessionValue)
    (ttl : Option Nat) (now : Nat) : Except LightError RedisPersistenceSession :=
  if st.available then .ok (st.store k v ttl now) else .error .backendUnavailable

/-- Modelled from the spec: remote `delete(key)` — idempotent removal or
`BackendUnavailable`. -/
def delete (st : RedisPersistenceSession) (k : SessionKey) :
    Except LightError RedisPersistenceSession :=
  if st.available then .ok (st.remove k) else .error .backendUnavailable

/-- Modelled from the spec: remote `get(key)` — returns the current value,
the absent marker `none` for a missing or expired key (native store expiry),
or surfaces `BackendUnavailable`; absence is never reported as an error. -/
def get (st : RedisPersistenceSession) (k : SessionKey) (now : Nat) :
    Except LightError (Option SessionValue) :=
  if st.available then
    .ok (match st.entries k with
      | none => none
      | some (v, none) => some v
      | some (v, some exp) => if now < exp then some v else none)
  else .error .backendUnavailable

end RedisPersistenceSession

/-- Operations a caller can issue against the remote backend. -/
inductive ROp where
  | set (k : SessionKey) (v : SessionValue) (ttl : Option Nat) (now : Nat)
  | del (k : SessionKey)
  | get (k : SessionKey) (now : Nat)

/-- State reached after one remote operation (a failed round trip leaves
the store unchanged; `get` never changes it). -/
def RedisPersistenceSession.apply (st : RedisPersistenceSession) :
    ROp → RedisPersistenceSession
  | .set k v ttl now => match st.set k v ttl now with
    | .ok st2 => st2
    | .error _ => st
  | .del k => match st.delete k with
    | .ok st2 => st2
    | .error _ => st
  | .get _ _ => st

/-- State reached after a sequence of remote operations. -/
def RedisPersistenceSession.applyOps (st : RedisPersistenceSession)
    (ops : List ROp) : RedisPersistenceSession :=
  ops.foldl RedisPersistenceSession.apply st

/-- Does the remote operation leave the entry at key `k` in place?  True
unless it overwrites or deletes `k` (remote reads never mutate). -/
def keepsRedisEntry (k : SessionKey) : ROp → Bool
  | .set q _ _ _ => !(q == k)
  | .del q => !(q == k)
  | .get _ _ => true

/-! ## Persistence session manager lifecycle

`PersistenceSessionManager` is imported by `main.py` from
`src.db.persistence_session.manager` but its code is not among the visible
sources; its lifecycle state machine is modelled from the specification
(§3, §4.2, §7). -/

/-- Modelled from the spec: the manager's lifecycle states,
init → serving → closed (§3). -/
inductive MgrState where
  | uninitialized
  | serving
  | closed
deriving DecidableEq, Repr

/-- Modelled from the spec: the manager's lifecycle error taxonomy (§7). -/
inductive MgrError where
  | notInitialized
  | alreadyInitialized
  | backendClosed
deriving DecidableEq, Repr

/-- The operations dispatched to the manager: `initialize()`, any data
operation through the composed backends, and `close()`. -/
inductive MgrOp where
  | init
  | dataOp
  | close
deriving DecidableEq, Repr

/-- Modelled from the spec: one manager operation — its outcome and the
state after it (§4.2, §7).  `initialize` succeeds exactly once and fails
with `AlreadyInitialized` on any later call; data operations fail with
`NotInitialized` before `initialize` and with `BackendClosed` after
`close`; `close` always succeeds and is idempotent. -/
def mgrStep : MgrState → MgrOp → Except MgrError Unit × MgrState
  | .uninitialized, .init => (.ok (), .serving)
  | .serving, .init => (.error .alreadyInitialized, .serving)
  | .closed, .init => (.error .alreadyInitialized, .closed)
  | .uninitialized, .dataOp => (.error .notInitialized, .uninitialized)
  | .serving, .dataOp => (.ok (), .serving)
  | .closed, .dataOp => (.error .backendClosed, .closed)
  | _, .close => (.ok (), .closed)

/-- The results and final state of a sequence of manager operations. -/
def mgrRun (st : MgrState) : List MgrOp → List (Except MgrError Unit) × MgrState
  | [] => ([], st)
  | op :: rest =>
    let r := mgrStep st op
    let rr := mgrRun r.2 rest
    (r.1 :: rr.1, rr.2)

/-- C10: `add_admin_back` and `add_start_back` are extensionally equal to
`add_back` for every text and cd, differing only in their default `cd`
values (`"admin"` and `"start"`); `add_back` always appends exactly one row
containing one button whose `callback_data` is the string form of its `cd`
argument (`pack()` of a `CallbackData`, the string itself otherwise). -/
theorem C10_back_helpers (b : CustomInlineKeyboardBuilder) (text : String) (cd : CdArg) :
    b.add_admin_back text cd = b.add_back text cd ∧
    b.add_start_back text cd = b.add_back text cd ∧
    (b.add_back text cd).rows = b.rows ++ [[⟨text, cdToString cd⟩]] ∧
    CustomInlineKeyboardBuilder.add_admin_back_default_cd = .str "admin" ∧
    CustomInlineKeyboardBuilder.add_start_back_default_cd = .str "start" ∧
    CustomInlineKeyboardBuilder.add_back_default_cd =
      CustomInlineKeyboardBuilder.add_start_back_default_cd := by
  refine ⟨rfl, rfl, ?_, rfl, rfl, rfl⟩
  cases cd <;>
    simp [CustomInlineKeyboardBuilder.add_back, CustomInlineKeyboardBuilder.row, cdToString]

/-- C1: on every run of `main()`, exactly one light backend is constructed,
and its variant is decided solely by `settings.redis`: a configured remote
store yields the Redis persistence session, otherwise the in-process memory
persistence session; no other input of the run changes the selection, and
the trace holds a single construction event, not one per call. -/
theorem C1_backend_selection (s : Settings) (cli : CliSettings)
    (initFails serveFails : Bool) (r : RedisSettings) :
    (mainRun s cli initFails serveFails).1.filter isConstructBackend =
      [.constructBackend (selectLightBackend s.redis)] ∧
    selectLightBackend (some r) = .redis ∧
    selectLightBackend none = .memory := by
  obtain ⟨rs, wh, wa, sup⟩ := s
  obtain ⟨cw⟩ := cli
  refine ⟨?_, rfl, rfl⟩
  cases initFails <;> cases cw <;> cases wh <;> cases wa <;> rfl

/-- C2: on every run of `main()` where `initialize()` does not raise, the
trace before the `initialize()` event holds nothing but the backend and
manager constructions: routers, middlewares, dispatcher wiring and
polling/webhook serving all happen strictly after `initialize()` completed,
and those events do occur in the run. -/
theorem C2_init_before_handlers (s : Settings) (cli : CliSettings)
    (serveFails : Bool) :
    (mainRun s cli false serveFails).1.takeWhile (fun e => !(isManagerInit e)) =
      [.constructBackend (selectLightBackend s.redis), .constructManager 0] ∧
    Event.managerInit 0 ∈ (mainRun s cli false serveFails).1 ∧
    Event.setupRouters ∈ (mainRun s cli false serveFails).1 ∧
    Event.setupMiddlewares 0 ∈ (mainRun s cli false serveFails).1 ∧
    Event.constructDispatcher 0 ∈ (mainRun s cli false serveFails).1 := by
  obtain ⟨rs, wh, wa, sup⟩ := s
  obtain ⟨cw⟩ := cli
  cases cw <;> cases wh <;> cases wa <;>
    exact ⟨rfl, by simp [mainRun, serveEvents, cleanupEvents],
      by simp [mainRun, serveEvents, cleanupEvents],
      by simp [mainRun, serveEvents, cleanupEvents],
      by simp [mainRun, serveEvents, cleanupEvents]⟩

/-- C4: if `initialize()` raises, `main()` stops right there: the run
consists of exactly the backend construction and the manager construction
followed by the escaping `BackendUnavailable` exception, and no router,
middleware, dispatcher, webadmin or polling/webhook serving event occurs. -/
theorem C4_init_failure_aborts_startup (s : Settings) (cli : CliSettings)
    (serveFails : Bool) :
    mainRun s cli true serveFails =
      ([.constructBackend (selectLightBackend s.redis), .constructManager 0],
        some .backendUnavailable) ∧
    (mainRun s cli true serveFails).1.filter isWiringOrServingEvent = [] := by
  exact ⟨rfl, rfl⟩

/-- C5: on every run of `main()`, the events that construct or receive a
`PersistenceSessionManager` are exactly one construction (identity 0)
followed, when `initialize()` succeeded, by the dispatcher construction and
the middleware setup receiving that same instance: one manager per process,
injected by reference, never a second construction. -/
theorem C5_single_manager_injected (s : Settings) (cli : CliSettings)
    (initFails serveFails : Bool) :
    (mainRun s cli initFails serveFails).1.filter isManagerEvent =
      .constructManager 0 ::
        (if initFails then [] else [.constructDispatcher 0, .setupMiddlewares 0]) := by
  obtain ⟨rs, wh, wa, sup⟩ := s
  obtain ⟨cw⟩ := cli
  cases initFails <;> cases cw <;> cases wh <;> cases wa <;> rfl

/-- C3 (counterexample): on a concrete normal run of `main()` (memory
backend, polling mode, no failures) the trace holds no
`session_manager.close()` event at all: the shutdown path never invokes the
manager's teardown, contradicting the claim. -/
theorem C3_counterexample_no_manager_close :
    (mainRun ⟨none, false, false, false⟩ ⟨false⟩ false false).1.filter isManagerClose =
      [] := by
  decide

/-- C3 (amended): `main()` never invokes the manager's `close()`; what the
shutdown path actually does, on every run whose serving phase was reached,
is end with the `finally` block closing the bot HTTP session, then the
dispatcher's storage, then the database, in that order. -/
theorem C3_shutdown_amended (s : Settings) (cli : CliSettings)
    (initFails serveFails : Bool) :
    (mainRun s cli initFails serveFails).1.filter isManagerClose = [] ∧
    (mainRun s cli false serveFails).1.drop
        ((mainRun s cli false serveFails).1.length - 3) =
      [.closeBotSession, .closeStorage, .closeDb] := by
  obtain ⟨rs, wh, wa, sup⟩ := s
  obtain ⟨cw⟩ := cli
  cases initFails <;> cases cw <;> cases wh <;> cases wa <;> exact ⟨rfl, rfl⟩

/-- C9: on every exit path of the serving phase — normal completion of
polling or webhook serving, an exception raised while serving, or the
`ValueError` raised when the CLI requests webhook mode while
`settings.webhook` is unset — the `finally` block runs, and its last three
events close the bot's HTTP session, then the dispatcher's storage, then
the database, in this order; on the `ValueError` path that exception still
escapes `main()` after the cleanup. -/
theorem C9_cleanup_on_every_exit (s : Settings) (cli : CliSettings)
    (serveFails : Bool) (rs : Option RedisSettings) (wa sup : Bool) :
    (mainRun s cli false serveFails).1.drop
        ((mainRun s cli false serveFails).1.length - 3) = cleanupEvents ∧
    (mainRun ⟨rs, false, wa, sup⟩ ⟨true⟩ false serveFails).2 =
      some .valueErrorWebhook ∧
    (mainRun ⟨rs, false, wa, sup⟩ ⟨true⟩ false serveFails).1.drop
        ((mainRun ⟨rs, false, wa, sup⟩ ⟨true⟩ false serveFails).1.length - 3) =
      cleanupEvents := by
  obtain ⟨rs', wh, wa', sup'⟩ := s
  obtain ⟨cw⟩ := cli
  cases cw <;> cases wh <;> cases wa <;> cases wa' <;> exact ⟨rfl, rfl, rfl⟩

/-- Extensionality for the in-process backend: equal maps, equal backends. -/
theorem MemoryPersistenceSession.ext_entries (a b : MemoryPersistenceSession)
    (h : ∀ q, a.entries q = b.entries q) : a = b := by
  cases a
  cases b
  simp only [MemoryPersistenceSession.mk.injEq]
  exact funext h

/-- A fresh `set` leaves the written entry at its key. -/
theorem MemoryPersistenceSession.set_entries_self (st : MemoryPersistenceSession)
    (k : SessionKey) (v : SessionValue) (ttl : Option Nat) (now : Nat) :
    (st.set k v ttl now).entries k = some (v, expiryOf ttl now) := by
  simp [MemoryPersistenceSession.set]

/-- One in-process operation that keeps the entry at `k` leaves it intact. -/
theorem MemoryPersistenceSession.apply_keeps (st : MemoryPersistenceSession)
    (k : SessionKey) (v : SessionValue) (e : Option Nat) (op : MemOp)
    (h : st.entries k = some (v, e)) (hk : keepsEntry k e op = true) :
    (st.apply op).entries k = some (v, e) := by
  cases op with
  | set q v2 ttl2 n2 =>
    simp only [keepsEntry, Bool.not_eq_true', beq_eq_false_iff_ne, ne_eq] at hk
    simp [MemoryPersistenceSession.apply, MemoryPersistenceSession.set,
      Ne.symm hk, h]
  | del q =>
    simp only [keepsEntry, Bool.not_eq_true', beq_eq_false_iff_ne, ne_eq] at hk
    simp [MemoryPersistenceSession.apply, MemoryPersistenceSession.delete,
      Ne.symm hk, h]
  | get q t =>
    simp only [keepsEntry, Bool.or_eq_true, Bool.not_eq_true',
      beq_eq_false_iff_ne, ne_eq] at hk
    simp only [MemoryPersistenceSession.apply, MemoryPersistenceSession.get]
    cases hq : st.entries q with
    | none => exact h
    | some p =>
      obtain ⟨v2, e2⟩ := p
      cases e2 with
      | none => exact h
      | some exp =>
        by_cases ht : t < exp
        · simp [ht, h]
        · simp only [ht, if_false]
          by_cases hqk : q = k
          · exfalso
            rw [hqk, h] at hq
            injection hq with hpair
            injection hpair with hv he
            rcases hk with hk | hk
            · exact hk hqk
            · rw [he] at hk
              simp only [readableAt, decide_eq_true_eq] at hk
              exact ht hk
          · simp [MemoryPersistenceSession.delete, Ne.symm hqk, h]

/-- A sequence of in-process operations that all keep the entry at `k`
leaves it intact. -/
theorem MemoryPersistenceSession.applyOps_keeps (k : SessionKey)
    (v : SessionValue) (e : Option Nat) :
    ∀ (ops : List MemOp) (st : MemoryPersistenceSession),
      st.entries k = some (v, e) → ops.all (keepsEntry k e) = true →
      (st.applyOps ops).entries k = some (v, e) := by
  intro ops
  induction ops with
  | nil =>
    intro st h _
    exact h
  | cons op rest ih =>
    intro st h hall
    rw [List.all_cons, Bool.and_eq_true] at hall
    have h2 := MemoryPersistenceSession.apply_keeps st k v e op h hall.1
    simpa [MemoryPersistenceSession.applyOps] using ih (st.apply op) h2 hall.2

/-- A readable entry is what `get` returns. -/
theorem MemoryPersistenceSession.get_of_entry (st : MemoryPersistenceSession)
    (k : SessionKey) (v : SessionValue) (e : Option Nat) (t : Nat)
    (h : st.entries k = some (v, e)) (hr : readableAt e t = true) :
    (st.get k t).1 = some v := by
  cases e with
  | none => simp [MemoryPersistenceSession.get, h]
  | some exp =>
    simp only [readableAt, decide_eq_true_eq] at hr
    simp [MemoryPersistenceSession.get, h, hr]

/-- Remote operations never change the availability of the store. -/
theorem RedisPersistenceSession.apply_available (st : RedisPersistenceSession)
    (op : ROp) : (st.apply op).available = st.available := by
  cases op with
  | set k v ttl now =>
    cases ha : st.available <;>
      simp [RedisPersistenceSession.apply, RedisPersistenceSession.set,
        RedisPersistenceSession.store, ha]
  | del k =>
    cases ha : st.available <;>
      simp [RedisPersistenceSession.apply, RedisPersistenceSession.delete,
        RedisPersistenceSession.remove, ha]
  | get k t => rfl

/-- A sequence of remote operations never changes availability. -/
theorem RedisPersistenceSession.applyOps_available :
    ∀ (ops : List ROp) (st : RedisPersistenceSession),
      (st.applyOps ops).available = st.available := by
  intro ops
  induction ops with
  | nil => intro st; rfl
  | cons op rest ih =>
    intro st
    calc (st.applyOps (op :: rest)).available
        = ((st.apply op).applyOps rest).available := rfl
      _ = (st.apply op).available := ih (st.apply op)
      _ = st.available := st.apply_available op

/-- One remote operation that keeps the entry at `k` leaves it intact. -/
theorem RedisPersistenceSession.apply_keeps_remote (st : RedisPersistenceSession)
    (k : SessionKey) (v : SessionValue) (e : Option Nat) (op : ROp)
    (h : st.entries k = some (v, e)) (hk : keepsRedisEntry k op = true) :
    (st.apply op).entries k = some (v, e) := by
  cases op with
  | set q v2 ttl2 n2 =>
    simp only [keepsRedisEntry, Bool.not_eq_true', beq_eq_false_iff_ne, ne_eq] at hk
    cases ha : st.available <;>
      simp [RedisPersistenceSession.apply, RedisPersistenceSession.set,
        RedisPersistenceSession.store, ha, Ne.symm hk, h]
  | del q =>
    simp only [keepsRedisEntry, Bool.not_eq_true', beq_eq_false_iff_ne, ne_eq] at hk
    cases ha : st.available <;>
      simp [RedisPersistenceSession.apply, RedisPersistenceSession.delete,
        RedisPersistenceSession.remove, ha, Ne.symm hk, h]
  | get q t => exact h

/-- A sequence of remote operations that all keep the entry at `k` leaves
it intact. -/
theorem RedisPersistenceSession.applyOps_keeps_remote (k : SessionKey)
    (v : SessionValue) (e : Option Nat) :
    ∀ (ops : List ROp) (st : RedisPersistenceSession),
      st.entries k = some (v, e) → ops.all (keepsRedisEntry k) = true →
      (st.applyOps ops).entries k = some (v, e) := by
  intro ops
  induction ops with
  | nil =>
    intro st h _
    exact h
  | cons op rest ih =>
    intro st h hall
    rw [List.all_cons, Bool.and_eq_true] at hall
    have h2 := RedisPersistenceSession.apply_keeps_remote st k v e op h hall.1
    simpa [RedisPersistenceSession.applyOps] using ih (st.apply op) h2 hall.2

/-- A readable entry on a reachable store is what remote `get` returns. -/
theorem RedisPersistenceSession.get_of_entry_remote (st : RedisPersistenceSession)
    (k : SessionKey) (v : SessionValue) (e : Option Nat) (t : Nat)
    (ha : st.available = true) (h : st.entries k = some (v, e))
    (hr : readableAt e t = true) :
    st.get k t = .ok (some v) := by
  cases e with
  | none => simp [RedisPersistenceSession.get, ha, h]
  | some exp =>
    simp only [readableAt, decide_eq_true_eq] at hr
    simp [RedisPersistenceSession.get, ha, h, hr]

/-- Extensionality for the remote backend: equal availability and equal
keyspaces, equal backends. -/
theorem RedisPersistenceSession.ext_fields (a b : RedisPersistenceSession)
    (h1 : a.available = b.available) (h2 : ∀ q, a.entries q = b.entries q) :
    a = b := by
  cases a
  cases b
  simp only [RedisPersistenceSession.mk.injEq]
  exact ⟨h1, funext h2⟩

/-- C7: on either light backend, once `set(k, v)` has completed, every
subsequent `get(k)` returns `v` as long as no later `set(k, _)`,
`delete(k)` or ttl expiry intervenes (arbitrary operations on other keys
may); `get` of a key with no value returns the explicit absent marker
without raising; and absent is distinguishable from the empty value. -/
theorem C7_set_then_get (st : MemoryPersistenceSession)
    (rst : RedisPersistenceSession) (k : SessionKey) (v : SessionValue)
    (ttl : Option Nat) (now now2 : Nat) (ops : List MemOp) (rops : List ROp)
    (hops : ops.all (keepsEntry k (expiryOf ttl now)) = true)
    (hrops : rops.all (keepsRedisEntry k) = true)
    (hav : rst.available = true)
    (hread : readableAt (expiryOf ttl now) now2 = true) :
    (((st.set k v ttl now).applyOps ops).get k now2).1 = some v ∧
    ((rst.apply (.set k v ttl now)).applyOps rops).get k now2 = .ok (some v) ∧
    (MemoryPersistenceSession.empty.get k now2).1 = none ∧
    RedisPersistenceSession.empty.get k now2 = .ok none ∧
    ((((MemoryPersistenceSession.empty.set k "" none now).get k now2).1 ==
      (MemoryPersistenceSession.empty.get k now2).1) = false) := by
  refine ⟨?_, ?_, ?_, ?_, ?_⟩
  · have h1 := MemoryPersistenceSession.set_entries_self st k v ttl now
    have h2 := MemoryPersistenceSession.applyOps_keeps k v (expiryOf ttl now)
      ops (st.set k v ttl now) h1 hops
    exact MemoryPersistenceSession.get_of_entry _ k v (expiryOf ttl now) now2 h2 hread
  · have h1 : (rst.apply (.set k v ttl now)).entries k =
        some (v, expiryOf ttl now) := by
      simp [RedisPersistenceSession.apply, RedisPersistenceSession.set,
        RedisPersistenceSession.store, hav]
    have h2 := RedisPersistenceSession.applyOps_keeps_remote k v (expiryOf ttl now)
      rops (rst.apply (.set k v ttl now)) h1 hrops
    have h3 : ((rst.apply (.set k v ttl now)).applyOps rops).available = true := by
      rw [RedisPersistenceSession.applyOps_available,
        RedisPersistenceSession.apply_available]
      exact hav
    exact RedisPersistenceSession.get_of_entry_remote _ k v (expiryOf ttl now) now2 h3 h2 hread
  · rfl
  · rfl
  · simp [MemoryPersistenceSession.get, MemoryPersistenceSession.set,
      MemoryPersistenceSession.empty, expiryOf]

/-- Witness for C7 at concrete inputs: key `"a"` is written with value
`"x"` and ttl 10 at time 0, other-key traffic intervenes, and the read at
time 5 still returns `"x"` on both backends. -/
theorem C7_set_then_get_witness :
    ([MemOp.get "b" 1, MemOp.del "b", MemOp.set "b" "y" none 2].all
      (keepsEntry "a" (expiryOf (some 10) 0)) = true) ∧
    ([ROp.get "b" 1, ROp.del "b"].all (keepsRedisEntry "a") = true) ∧
    (RedisPersistenceSession.empty.available = true) ∧
    (readableAt (expiryOf (some 10) 0) 5 = true) ∧
    ((((MemoryPersistenceSession.empty.set "a" "x" (some 10) 0).applyOps
        [MemOp.get "b" 1, MemOp.del "b", MemOp.set "b" "y" none 2]).get "a" 5).1 =
      some "x" ∧
    ((RedisPersistenceSession.empty.apply (.set "a" "x" (some 10) 0)).applyOps
        [ROp.get "b" 1, ROp.del "b"]).get "a" 5 = .ok (some "x") ∧
    (MemoryPersistenceSession.empty.get "a" 5).1 = none ∧
    RedisPersistenceSession.empty.get "a" 5 = .ok none ∧
    ((((MemoryPersistenceSession.empty.set "a" "" none 0).get "a" 5).1 ==
      (MemoryPersistenceSession.empty.get "a" 5).1) = false)) :=
  ⟨by decide, by decide, rfl, by decide,
    C7_set_then_get MemoryPersistenceSession.empty RedisPersistenceSession.empty
      "a" "x" (some 10) 0 5 [MemOp.get "b" 1, MemOp.del "b", MemOp.set "b" "y" none 2]
      [ROp.get "b" 1, ROp.del "b"] (by decide) (by decide) rfl (by decide)⟩

/-- C8: `delete` is idempotent on both light backends: for every prior
state of `k` (including never set) it succeeds, deleting twice equals
deleting once, and a `get(k)` issued after `delete(k)` returns the absent
marker; on the remote backend a reachable store reports success and the
subsequent `get` reports absent, not an error. -/
theorem C8_delete_idempotent (st : MemoryPersistenceSession)
    (rst : RedisPersistenceSession) (k : SessionKey) (t : Nat)
    (hav : rst.available = true) :
    ((st.delete k).get k t).1 = none ∧
    (st.delete k).delete k = st.delete k ∧
    rst.delete k = .ok (rst.remove k) ∧
    (rst.remove k).get k t = .ok none ∧
    (rst.remove k).remove k = rst.remove k := by
  refine ⟨?_, ?_, ?_, ?_, ?_⟩
  · simp [MemoryPersistenceSession.get, MemoryPersistenceSession.delete]
  · refine MemoryPersistenceSession.ext_entries _ _ (fun q => ?_)
    by_cases hq : q = k <;> simp [MemoryPersistenceSession.delete, hq]
  · simp [RedisPersistenceSession.delete, hav]
  · simp [RedisPersistenceSession.get, RedisPersistenceSession.remove, hav]
  · refine RedisPersistenceSession.ext_fields _ _ rfl (fun q => ?_)
    by_cases hq : q = k <;> simp [RedisPersistenceSession.remove, hq]

/-- Witness for C8 at concrete inputs: deleting the never-set key `"a"`
succeeds on both backends and the subsequent reads return absent. -/
theorem C8_delete_idempotent_witness :
    (RedisPersistenceSession.empty.available = true) ∧
    (((MemoryPersistenceSession.empty.delete "a").get "a" 0).1 = none ∧
    (MemoryPersistenceSession.empty.delete "a").delete "a" =
      MemoryPersistenceSession.empty.delete "a" ∧
    RedisPersistenceSession.empty.delete "a" =
      .ok (RedisPersistenceSession.empty.remove "a") ∧
    (RedisPersistenceSession.empty.remove "a").get "a" 0 = .ok none ∧
    (RedisPersistenceSession.empty.remove "a").remove "a" =
      RedisPersistenceSession.empty.remove "a") :=
  ⟨rfl, C8_delete_idempotent MemoryPersistenceSession.empty
    RedisPersistenceSession.empty "a" 0 rfl⟩

/-- C6: the manager's lifecycle state machine: a data operation before
`initialize()` completed fails with the distinct error `NotInitialized`; a
second `initialize()` fails with `AlreadyInitialized`; after `close()` a
data operation fails with `BackendClosed` — a distinct error, not
`NotInitialized` — and a second `close()` is a no-op that does not raise;
the run `initialize; dataOp; close; close; dataOp` exhibits exactly this. -/
theorem C6_manager_lifecycle :
    mgrStep .uninitialized .dataOp = (.error .notInitialized, .uninitialized) ∧
    (mgrStep .serving .init).1 = .error .alreadyInitialized ∧
    mgrStep .closed .dataOp = (.error .backendClosed, .closed) ∧
    ((MgrError.backendClosed == MgrError.notInitialized) = false) ∧
    mgrStep .closed .close = (.ok (), .closed) ∧
    mgrRun .uninitialized [.init, .dataOp, .close, .close, .dataOp] =
      ([.ok (), .ok (), .ok (), .ok (), .error .backendClosed], .closed) := by
  exact ⟨rfl, rfl, rfl, rfl, rfl, rfl⟩
